import Mathlib

/-!
# Verification of the token-lease server's token lifecycle engine

Shallow embedding of the JavaScript sources:

* `src/modules/token-storage.js` — class `TokenStorage` (the credential registry);
* `src/modules/github-token-service.js` — classes `GitHubTokenService` and `ApiRoutes`
  (issuance/revocation gateway and the HTTP route handlers);
* the token cleanup service (class `TokenCleanupService`) and the configuration
  validator (class `ConfigValidator`).

Modelling conventions:

* Timestamps (`Date.now()` values) are integers in milliseconds.  Each synchronous
  entry point is modelled as executing at one clock instant `now : Int`; the few
  repeated `Date.now()` reads inside a single synchronous handler are identified.
* The upstream GitHub HTTP calls (`axios.post` token exchange, `axios.delete`
  revocation) are parameters ("oracles"): a function from the request to an
  `Except UpstreamError` result.  A thrown axios error and a non-2xx response are
  both the `.error` case, carrying the provider's status/body/message.
* Effects are made explicit: functions that perform upstream calls also return the
  list of requests they made, and stateful methods return the updated state.
* The JavaScript `Map` backing the registry is an association list in insertion
  order; `Map.set` on an existing key replaces in place, otherwise appends.
* Request-body values (`req.body.repositories`) are modelled by `JsValue`, with
  JavaScript truthiness and `Array.isArray` semantics.
-/

/-- A JavaScript value as it can appear in a JSON request body. -/
inductive JsValue where
  | undef
  | null
  | bool (b : Bool)
  | num (n : Int)
  | str (s : String)
  | arr (xs : List JsValue)
deriving Repr

/-- JavaScript truthiness: `undefined`, `null`, `false`, `0`, `""` are falsy;
every array (including `[]`) is truthy. -/
def JsValue.truthy : JsValue → Bool
  | .undef => false
  | .null => false
  | .bool b => b
  | .num n => n != 0
  | .str s => s != ""
  | .arr _ => true

/-- `Array.isArray`. -/
def JsValue.isArray : JsValue → Bool
  | .arr _ => true
  | _ => false

/-- `typeof v === 'string'`. -/
def JsValue.isStr : JsValue → Bool
  | .str _ => true
  | _ => false

/-- `v.length` where it exists (arrays and strings); `none` models `undefined`. -/
def JsValue.jsLength : JsValue → Option Nat
  | .arr xs => some xs.length
  | .str s => some s.length
  | _ => none

/-- A stored token record:
`{ tokenId, clientId, token, expiresAt, createdAt, cached }`. -/
structure TokenEntry where
  tokenId : String
  clientId : String
  token : String
  expiresAt : Int
  createdAt : Int
  cached : Bool
deriving Repr, DecidableEq

/-- The object literal a caller passes to `TokenStorage.store`.  `tokenId` and
`createdAt` are optional properties (`none` models the property being absent);
the remaining properties are the ones every caller in the repository supplies. -/
structure TokenEntryInput where
  tokenId? : Option String := none
  clientId : String
  token : String
  expiresAt : Int
  createdAt? : Option Int := none
  cached : Bool
deriving Repr, DecidableEq

/-- The `TokenStorage` instance state: the backing `Map` (association list in
insertion order) and the monotone id counter. -/
structure TokenStorage where
  storage : List (String × TokenEntry)
  tokenCounter : Nat
deriving Repr, DecidableEq

/-- `new TokenStorage()`. -/
def TokenStorage.init : TokenStorage := { storage := [], tokenCounter := 0 }

/-- `Map.get`. -/
def mapGet (m : List (String × TokenEntry)) (k : String) : Option TokenEntry :=
  (m.find? (fun p => p.1 == k)).map Prod.snd

/-- `Map.set`: replace in place if the key is present, else append. -/
def mapSet (m : List (String × TokenEntry)) (k : String) (v : TokenEntry) :
    List (String × TokenEntry) :=
  if m.any (fun p => p.1 == k) then m.map (fun p => if p.1 == k then (k, v) else p)
  else m ++ [(k, v)]

/-- `generateTokenId()`: the template literal
``token_${++this.tokenCounter}_${Date.now()}`` evaluated after the counter was
incremented to `counter`. -/
def generateTokenId (counter : Nat) (now : Int) : String :=
  "token_" ++ toString counter ++ "_" ++ toString now

/-- `TokenStorage.store(tokenEntry)`.  The entry is
`{ tokenId, ...tokenEntry, createdAt: Date.now() }`: the generated `tokenId` is
written first, so a `tokenId` property in the caller's object overrides it by the
spread; `createdAt` is written after the spread, so it always holds the insertion
clock value regardless of the caller's object.  Returns the entry; the map key is
the generated id. -/
def TokenStorage.store (s : TokenStorage) (now : Int) (tokenEntry : TokenEntryInput) :
    TokenEntry × TokenStorage :=
  let counter := s.tokenCounter + 1
  let tokenId := generateTokenId counter now
  let entry : TokenEntry :=
    { tokenId := tokenEntry.tokenId?.getD tokenId
      clientId := tokenEntry.clientId
      token := tokenEntry.token
      expiresAt := tokenEntry.expiresAt
      createdAt := now
      cached := tokenEntry.cached }
  (entry, { storage := mapSet s.storage tokenId entry, tokenCounter := counter })

/-- `TokenStorage.get(tokenId)`. -/
def TokenStorage.get (s : TokenStorage) (tokenId : String) : Option TokenEntry :=
  mapGet s.storage tokenId

/-- `TokenStorage.getAll()`. -/
def TokenStorage.getAll (s : TokenStorage) : List TokenEntry :=
  s.storage.map Prod.snd

/-- `TokenStorage.getByClientId(clientId)`: the `{ tokenId, tokenData }` pairs in
iteration order. -/
def TokenStorage.getByClientId (s : TokenStorage) (clientId : String) :
    List (String × TokenEntry) :=
  s.storage.filter (fun p => p.2.clientId == clientId)

/-- `TokenStorage.delete(tokenId)`: returns whether the key was present and the
updated storage. -/
def TokenStorage.delete (s : TokenStorage) (tokenId : String) : Bool × TokenStorage :=
  (s.storage.any (fun p => p.1 == tokenId),
   { s with storage := s.storage.filter (fun p => p.1 != tokenId) })

/-- `TokenStorage.deleteByClientId(clientId)`: deletes every matching key and
returns the deleted `{ tokenId, tokenData }` pairs. -/
def TokenStorage.deleteByClientId (s : TokenStorage) (clientId : String) :
    List (String × TokenEntry) × TokenStorage :=
  let tokensToDelete := s.getByClientId clientId
  (tokensToDelete,
   tokensToDelete.foldl (fun st p => (st.delete p.1).2) s)

/-- `TokenStorage.clear()`: returns all entries and empties the map (the id
counter is not reset). -/
def TokenStorage.clear (s : TokenStorage) : List TokenEntry × TokenStorage :=
  (s.getAll, { s with storage := [] })

/-- `TokenStorage.size`. -/
def TokenStorage.size (s : TokenStorage) : Nat := s.storage.length

/-- `TokenStorage.has(tokenId)`. -/
def TokenStorage.has (s : TokenStorage) (tokenId : String) : Bool :=
  s.storage.any (fun p => p.1 == tokenId)

/-- `TokenStorage.getExpiredTokens()`: the `{ tokenId, tokenData }` pairs with
`now > tokenData.expiresAt`. -/
def TokenStorage.getExpiredTokens (s : TokenStorage) (now : Int) :
    List (String × TokenEntry) :=
  s.storage.filter (fun p => now > p.2.expiresAt)

/-- The loaded configuration object (after `ConfigValidator.loadDefaults`).
String-valued settings may still be `undefined` (`none`); numeric settings have
defaults so they are plain integers. -/
structure Config where
  port : Int
  appId : Option String
  installationId : Option String
  privateKeyPath : Option String
  cacheCheckInterval : Int
  tokenLifespan : Int
deriving Repr, DecidableEq

/-- Caller/environment-supplied raw configuration: every setting optional.
Environment strings for the numeric settings are modelled already parsed
(`Number(...)` on a JavaScript numeric string). -/
structure RawConfig where
  port : Option Int := none
  appId : Option String := none
  installationId : Option String := none
  privateKeyPath : Option String := none
  cacheCheckInterval : Option Int := none
  tokenLifespan : Option Int := none
deriving Repr, DecidableEq

/-- JavaScript `a || b` on possibly-undefined strings (`""` is falsy). -/
def orStr (a b : Option String) : Option String :=
  match a with
  | some s => if s == "" then b else some s
  | none => b

/-- JavaScript `a || b || d` on possibly-undefined numbers (`0` is falsy). -/
def orNumDefault (a b : Option Int) (d : Int) : Int :=
  match a with
  | some x => if x == 0 then (match b with | some y => if y == 0 then d else y | none => d) else x
  | none => match b with | some y => if y == 0 then d else y | none => d

/-- `ConfigValidator.loadDefaults(config)` with the environment made explicit. -/
def ConfigValidator.loadDefaults (config env : RawConfig) : Config :=
  { port := orNumDefault config.port env.port 3000
    appId := orStr config.appId env.appId
    installationId := orStr config.installationId env.installationId
    privateKeyPath := orStr config.privateKeyPath env.privateKeyPath
    cacheCheckInterval := orNumDefault config.cacheCheckInterval env.cacheCheckInterval 60000
    tokenLifespan := orNumDefault config.tokenLifespan env.tokenLifespan 300000 }

/-- Truthiness of a possibly-undefined string. -/
def optStrTruthy : Option String → Bool
  | some s => s != ""
  | none => false

/-- `ConfigValidator.validate(config)`: throws on a missing app id, missing
installation id, or non-existing private key file (`fs.existsSync` is an
oracle).  No other setting is checked. -/
def ConfigValidator.validate (existsSync : Option String → Bool) (config : Config) :
    Except String Unit :=
  if !optStrTruthy config.appId then
    .error "APP_ID is required"
  else if !optStrTruthy config.installationId then
    .error "INSTALLATION_ID is required"
  else if !existsSync config.privateKeyPath then
    .error ("Private key file not found: " ++ config.privateKeyPath.getD "undefined")
  else
    .ok ()

/-- The provider-side failure of an upstream call: a thrown axios error or a
non-success HTTP status, carrying the provider's status and body. -/
structure UpstreamError where
  status : Int
  body : String
  message : String
deriving Repr, DecidableEq

/-- A successful response body of the GitHub token-exchange endpoint.
`expires_at` is the provider's own reported expiry (an ISO timestamp string). -/
structure GitHubExchangeOk where
  token : String
  expires_at : String
  permissions : List (String × String)
  repository_selection : String
deriving Repr, DecidableEq

/-- The value `GitHubTokenService.generateInstallationToken` resolves with. -/
structure InstallationTokenData where
  token : String
  expiresAt : Int
  permissions : List (String × String)
  repositorySelection : String
deriving Repr, DecidableEq

/-- The JWT payload built by `GitHubTokenService.generateJWT`. -/
structure JwtPayload where
  iat : Int
  exp : Int
  iss : Option String
deriving Repr, DecidableEq

/-- `GitHubTokenService.generateJWT()`:
`iat = Math.floor(Date.now() / 1000)`, `exp = iat + 9 * 60` (under the
10-minute GitHub ceiling), `iss = config.appId`.  `Math.floor` on the
millisecond clock is `Int.fdiv`. -/
def GitHubTokenService.generateJWT (config : Config) (now : Int) : JwtPayload :=
  { iat := Int.fdiv now 1000
    exp := Int.fdiv now 1000 + 9 * 60
    iss := config.appId }

/-- The `requestBody` built by `generateInstallationToken`: the `repositories`
key is set only when `repositories && repositories.length > 0`. -/
def exchangeRequestBody (repositories : JsValue) : Option JsValue :=
  if repositories.truthy && (repositories.jsLength.getD 0 > 0) then some repositories
  else none

/-- `GitHubTokenService.generateInstallationToken(repositories)`.  The
`axios.post` to the exchange endpoint is the oracle `exchange`, taking the
request body.  On success the result's `expiresAt` is
`Date.now() + config.tokenLifespan`, overriding the provider's `expires_at`;
on failure the error is logged and rethrown unchanged.  Also returns the list
of exchange requests performed. -/
def GitHubTokenService.generateInstallationToken (config : Config) (now : Int)
    (exchange : Option JsValue → Except UpstreamError GitHubExchangeOk)
    (repositories : JsValue) :
    Except UpstreamError InstallationTokenData × List (Option JsValue) :=
  let requestBody := exchangeRequestBody repositories
  match exchange requestBody with
  | .ok resp =>
      (.ok { token := resp.token
             expiresAt := now + config.tokenLifespan
             permissions := resp.permissions
             repositorySelection := resp.repository_selection },
       [requestBody])
  | .error e => (.error e, [requestBody])

/-- `GitHubTokenService.revokeToken(token)`: the `axios.delete` to the revoke
endpoint is the oracle `revoke`; returns `true` on success and `false` on any
failure (the error is caught and logged, never rethrown). -/
def GitHubTokenService.revokeToken (revoke : String → Except UpstreamError Unit)
    (token : String) : Bool :=
  match revoke token with
  | .ok _ => true
  | .error _ => false

/-- The JSON response of the token-issuing routes (`GET`/`POST /token/:clientId?`).
`status` is the HTTP status code (200 via the default of `res.json`). -/
structure IssueResponse where
  status : Nat
  success : Bool
  clientId : Option String := none
  token : Option String := none
  expiresAt : Option Int := none
  createdAt : Option Int := none
  cached : Option Bool := none
  repositories : Option JsValue := none
  error : Option String := none
  message : Option String := none
deriving Repr

/-- Result of running a token-issuing route handler: the response, the updated
registry, and the upstream exchange requests performed. -/
structure IssueResult where
  response : IssueResponse
  storage : TokenStorage
  exchangeCalls : List (Option JsValue)
deriving Repr

/-- `ApiRoutes.getTokenForClient(clientId, repositories)`: always performs a
fresh upstream exchange, then stores
`{ clientId, token, expiresAt: Date.now() + config.tokenLifespan, cached: false }`
and returns the stored entry.  Upstream failure propagates unchanged. -/
def ApiRoutes.getTokenForClient (config : Config) (s : TokenStorage) (now : Int)
    (exchange : Option JsValue → Except UpstreamError GitHubExchangeOk)
    (clientId : String) (repositories : JsValue) :
    Except UpstreamError (TokenEntry × TokenStorage) × List (Option JsValue) :=
  match GitHubTokenService.generateInstallationToken config now exchange repositories with
  | (.error e, calls) => (.error e, calls)
  | (.ok tokenData, calls) =>
      let createTime := now
      let expiresAt := createTime + config.tokenLifespan
      let (entry, s') := s.store now
        { clientId := clientId
          token := tokenData.token
          expiresAt := expiresAt
          cached := false }
      (.ok (entry, s'), calls)

/-- `req.params.clientId || 'default'`. -/
def clientIdOrDefault (clientIdParam : Option String) : String :=
  match clientIdParam with
  | some s => if s == "" then "default" else s
  | none => "default"

/-- The `GET /token/:clientId?` handler: 200 with the token data on success,
500 with `success:false` on any error (the process never crashes and the
exchange is not retried). -/
def ApiRoutes.handleGetToken (config : Config) (s : TokenStorage) (now : Int)
    (exchange : Option JsValue → Except UpstreamError GitHubExchangeOk)
    (clientIdParam : Option String) : IssueResult :=
  let clientId := clientIdOrDefault clientIdParam
  match ApiRoutes.getTokenForClient config s now exchange clientId .null with
  | (.ok (token, s'), calls) =>
      { response :=
          { status := 200
            success := true
            clientId := some clientId
            token := some token.token
            expiresAt := some token.expiresAt
            createdAt := some token.createdAt
            cached := some token.cached }
        storage := s'
        exchangeCalls := calls }
  | (.error e, calls) =>
      { response :=
          { status := 500
            success := false
            error := some "Failed to generate token"
            message := some e.message }
        storage := s
        exchangeCalls := calls }

/-- The validation condition of the `POST /token/:clientId?` handler:
`repositories && (!Array.isArray(repositories) || repositories.some(r => typeof r !== 'string'))`. -/
def invalidRepositories (v : JsValue) : Bool :=
  v.truthy &&
    (!v.isArray ||
      (match v with
       | .arr xs => xs.any (fun r => !r.isStr)
       | _ => false))

/-- The `POST /token/:clientId?` handler: 400 when the `repositories` body value
is truthy but not an array of strings; otherwise issues a token, echoing
`repositories || 'all'` in the response. -/
def ApiRoutes.handlePostToken (config : Config) (s : TokenStorage) (now : Int)
    (exchange : Option JsValue → Except UpstreamError GitHubExchangeOk)
    (clientIdParam : Option String) (repositories : JsValue) : IssueResult :=
  let clientId := clientIdOrDefault clientIdParam
  if invalidRepositories repositories then
    { response :=
        { status := 400
          success := false
          error := some "Invalid repositories parameter"
          message := some "repositories must be an array of strings" }
      storage := s
      exchangeCalls := [] }
  else
    match ApiRoutes.getTokenForClient config s now exchange clientId repositories with
    | (.ok (token, s'), calls) =>
        { response :=
            { status := 200
              success := true
              clientId := some clientId
              token := some token.token
              expiresAt := some token.expiresAt
              createdAt := some token.createdAt
              cached := some token.cached
              repositories := some (if repositories.truthy then repositories else .str "all") }
          storage := s'
          exchangeCalls := calls }
    | (.error e, calls) =>
        { response :=
            { status := 500
              success := false
              error := some "Failed to generate token"
              message := some e.message }
          storage := s
          exchangeCalls := calls }

/-- The JSON response of the deletion routes. -/
structure DeleteResponse where
  status : Nat
  success : Bool
  message : String
  tokenId : Option String := none
  clientId : Option String := none
  revoked : Option Bool := none
  deletedTokens : Option (List String) := none
  revokedCount : Option Nat := none
  cleared : Option Nat := none
deriving Repr

/-- Result of running a deletion route handler: the response, the updated
registry, and the secrets passed to the upstream revoke endpoint. -/
structure RouteDeleteResult where
  response : DeleteResponse
  storage : TokenStorage
  revokeCalls : List String
deriving Repr

/-- The loop body state of the delete-by-client branch. -/
structure OwnerDeleteAcc where
  revokedCount : Nat
  deletedTokens : List String
  storage : TokenStorage
  revokeCalls : List String

/-- One iteration of the delete-by-client loop: attempt revocation, count a
success, delete the record locally regardless, record the id. -/
def ownerDeleteStep (revoke : String → Except UpstreamError Unit)
    (acc : OwnerDeleteAcc) (p : String × TokenEntry) : OwnerDeleteAcc :=
  let revoked := GitHubTokenService.revokeToken revoke p.2.token
  { revokedCount := if revoked then acc.revokedCount + 1 else acc.revokedCount
    deletedTokens := acc.deletedTokens ++ [p.1]
    storage := (acc.storage.delete p.1).2
    revokeCalls := acc.revokeCalls ++ [p.2.token] }

/-- `ApiRoutes.handleTokenDeletion(identifier)`: delete by token id when the
registry has the identifier as a key, else delete every record of the client
with that id, else report `success:false` (HTTP 200) without touching the
registry or calling the revoke endpoint.  Revocation is attempted before each
local removal but its outcome never prevents the removal. -/
def ApiRoutes.handleTokenDeletion (revoke : String → Except UpstreamError Unit)
    (s : TokenStorage) (identifier : String) : RouteDeleteResult :=
  match s.get identifier with
  | some tokenData =>
      let revoked := GitHubTokenService.revokeToken revoke tokenData.token
      let s' := (s.delete identifier).2
      { response :=
          { status := 200
            success := true
            message := "Token " ++ identifier ++ " deleted" ++
              (if revoked then " and revoked" else " (revocation failed)")
            tokenId := some identifier
            clientId := some tokenData.clientId
            revoked := some revoked }
        storage := s'
        revokeCalls := [tokenData.token] }
  | none =>
      let tokensToDelete := s.getByClientId identifier
      if tokensToDelete.isEmpty then
        { response :=
            { status := 200
              success := false
              message := "No tokens found for identifier: " ++ identifier }
          storage := s
          revokeCalls := [] }
      else
        let acc := tokensToDelete.foldl (ownerDeleteStep revoke)
          { revokedCount := 0, deletedTokens := [], storage := s, revokeCalls := [] }
        { response :=
            { status := 200
              success := true
              message := "Deleted " ++ toString tokensToDelete.length ++
                " tokens for client: " ++ identifier ++
                " (" ++ toString acc.revokedCount ++ " revoked)"
              clientId := some identifier
              deletedTokens := some acc.deletedTokens
              revokedCount := some acc.revokedCount }
          storage := acc.storage
          revokeCalls := acc.revokeCalls }

/-- `ApiRoutes.handleClearAllTokens()`: attempts to revoke every stored secret,
then clears the registry regardless of the outcomes. -/
def ApiRoutes.handleClearAllTokens (revoke : String → Except UpstreamError Unit)
    (s : TokenStorage) : RouteDeleteResult :=
  let allTokens := s.getAll
  let size := allTokens.length
  let revokedCount := allTokens.countP
    (fun tokenData => GitHubTokenService.revokeToken revoke tokenData.token)
  let s' := (s.clear).2
  { response :=
      { status := 200
        success := true
        message := "Cleared " ++ toString size ++ " tokens from storage (" ++
          toString revokedCount ++ " revoked)"
        cleared := some size
        revokedCount := some revokedCount }
    storage := s'
    revokeCalls := allTokens.map (fun tokenData => tokenData.token) }

/-- The `DELETE /tokens/:identifier?` route: dispatches on the (JavaScript
truthiness of the) identifier parameter. -/
def ApiRoutes.deleteTokensRoute (revoke : String → Except UpstreamError Unit)
    (s : TokenStorage) (identifier : Option String) : RouteDeleteResult :=
  match identifier with
  | some id =>
      if id == "" then ApiRoutes.handleClearAllTokens revoke s
      else ApiRoutes.handleTokenDeletion revoke s id
  | none => ApiRoutes.handleClearAllTokens revoke s

/-- The outcome of one `TokenCleanupService.cleanupExpiredTokens()` run: the
internal `cleanedCount`/`revokedCount` tallies (logged by the JavaScript code),
the updated registry, and the secrets passed to the revoke endpoint. -/
structure CleanupResult where
  cleanedCount : Nat
  revokedCount : Nat
  storage : TokenStorage
  revokeCalls : List String
deriving Repr

/-- One iteration of the cleanup loop: attempt revocation, count a success,
delete the record locally regardless. -/
def cleanupStep (revoke : String → Except UpstreamError Unit)
    (acc : CleanupResult) (p : String × TokenEntry) : CleanupResult :=
  let revoked := GitHubTokenService.revokeToken revoke p.2.token
  { cleanedCount := acc.cleanedCount + 1
    revokedCount := if revoked then acc.revokedCount + 1 else acc.revokedCount
    storage := (acc.storage.delete p.1).2
    revokeCalls := acc.revokeCalls ++ [p.2.token] }

/-- `TokenCleanupService.cleanupExpiredTokens()`: takes the expired snapshot at
`now`, then for each expired record attempts revocation and removes the record
from the registry whether or not revocation succeeded. -/
def TokenCleanupService.cleanupExpiredTokens
    (revoke : String → Except UpstreamError Unit) (now : Int) (s : TokenStorage) :
    CleanupResult :=
  let expiredTokens := s.getExpiredTokens now
  expiredTokens.foldl (cleanupStep revoke)
    { cleanedCount := 0, revokedCount := 0, storage := s, revokeCalls := [] }

/-! ## Decoding the generation counter out of a token id

`generateTokenId` embeds the freshly incremented counter between the first and
second underscore of the id string.  `idCounter` recovers it; the round-trip
lemma below is what makes distinctness and monotonicity of generated ids
provable at the string level. -/

/-- Numeric value of a decimal digit character. -/
def digitVal (c : Char) : Nat := c.toNat - '0'.toNat

/-- Reads a most-significant-first decimal digit string. -/
def decodeDigits (ds : List Char) : Nat :=
  ds.foldl (fun a c => 10 * a + digitVal c) 0

/-- The counter segment of a token id: the digits between `token_` and the
following underscore. -/
def idCounter (id : String) : Nat :=
  decodeDigits ((id.data.drop 6).takeWhile (fun c => c != '_'))

theorem digitVal_digitChar : ∀ d : Nat, d < 10 → digitVal (Nat.digitChar d) = d := by
  decide

theorem digitChar_ne_underscore : ∀ d : Nat, d < 10 → Nat.digitChar d ≠ '_' := by
  decide

theorem toDigitsCore_decode (fuel : Nat) :
    ∀ (n : Nat) (acc : List Char), n < fuel →
      List.foldl (fun a c => 10 * a + digitVal c) 0 (Nat.toDigitsCore 10 fuel n acc)
        = List.foldl (fun a c => 10 * a + digitVal c) n acc := by
  induction fuel with
  | zero => intro n acc h; omega
  | succ fuel ih =>
    intro n acc h
    rw [Nat.toDigitsCore]
    by_cases h10 : n / 10 = 0
    · rw [if_pos h10]
      simp only [List.foldl]
      rw [digitVal_digitChar _ (Nat.mod_lt _ (by omega))]
      have e : 10 * 0 + n % 10 = n := by omega
      rw [e]
    · rw [if_neg h10]
      rw [ih (n / 10) _ (by omega)]
      simp only [List.foldl]
      rw [digitVal_digitChar _ (Nat.mod_lt _ (by omega))]
      have e : 10 * (n / 10) + n % 10 = n := by omega
      rw [e]

theorem decodeDigits_repr (n : Nat) : decodeDigits (Nat.repr n).data = n := by
  show List.foldl (fun a c => 10 * a + digitVal c) 0 (Nat.toDigits 10 n) = n
  rw [Nat.toDigits]
  rw [toDigitsCore_decode (n + 1) n [] (Nat.lt_succ_self n)]
  rfl

theorem toDigitsCore_chars (fuel : Nat) :
    ∀ (n : Nat) (acc : List Char) (c : Char), c ∈ Nat.toDigitsCore 10 fuel n acc →
      c ∈ acc ∨ ∃ d, d < 10 ∧ c = Nat.digitChar d := by
  induction fuel with
  | zero => intro n acc c h; exact Or.inl h
  | succ fuel ih =>
    intro n acc c h
    rw [Nat.toDigitsCore] at h
    by_cases h10 : n / 10 = 0
    · simp only [h10, if_pos rfl] at h
      rcases List.mem_cons.mp h with h1 | h2
      · exact Or.inr ⟨n % 10, Nat.mod_lt _ (by omega), h1⟩
      · exact Or.inl h2
    · simp only [h10, if_neg h10] at h
      rcases ih (n / 10) _ c h with h1 | h2
      · rcases List.mem_cons.mp h1 with h3 | h4
        · exact Or.inr ⟨n % 10, Nat.mod_lt _ (by omega), h3⟩
        · exact Or.inl h4
      · exact Or.inr h2

theorem repr_no_underscore (n : Nat) : ∀ c ∈ (Nat.repr n).data, c ≠ '_' := by
  intro c hc
  have : c ∈ Nat.toDigitsCore 10 (n + 1) n [] := hc
  rcases toDigitsCore_chars (n + 1) n [] c this with h1 | ⟨d, hd, rfl⟩
  · simp at h1
  · exact digitChar_ne_underscore d hd

theorem takeWhile_until_underscore (xs ys : List Char) (h : ∀ c ∈ xs, c ≠ '_') :
    (xs ++ '_' :: ys).takeWhile (fun c => c != '_') = xs := by
  induction xs with
  | nil => simp [List.takeWhile]
  | cons a as ih =>
    have ha : a ≠ '_' := h a (List.mem_cons_self a as)
    have hb : (a != '_') = true := by simpa using ha
    simp only [List.cons_append, List.takeWhile_cons, hb, if_true]
    exact congrArg (List.cons a) (ih (fun c hc => h c (List.mem_cons_of_mem a hc)))

theorem idCounter_generateTokenId (c : Nat) (t : Int) :
    idCounter (generateTokenId c t) = c := by
  unfold idCounter generateTokenId
  rw [String.data_append, String.data_append, String.data_append]
  have hts : (toString c).data = (Nat.repr c).data := rfl
  have assoc : ("token_".data ++ (toString c).data ++ "_".data ++ (toString t).data)
      = "token_".data ++ ((Nat.repr c).data ++ '_' :: (toString t).data) := by
    rw [hts]; simp [List.append_assoc]
  rw [assoc]
  have hdrop : List.drop 6 ("token_".data ++ ((Nat.repr c).data ++ '_' :: (toString t).data))
      = (Nat.repr c).data ++ '_' :: (toString t).data := rfl
  rw [hdrop]
  rw [takeWhile_until_underscore _ _ (repr_no_underscore c)]
  exact decodeDigits_repr c

theorem generateTokenId_inj_counter {c₁ c₂ : Nat} {t₁ t₂ : Int}
    (h : generateTokenId c₁ t₁ = generateTokenId c₂ t₂) : c₁ = c₂ := by
  have := congrArg idCounter h
  rwa [idCounter_generateTokenId, idCounter_generateTokenId] at this

/-! ## Registry helper lemmas -/

theorem find?_mapSet_replace (m : List (String × TokenEntry)) (k : String) (v : TokenEntry)
    (h : m.any (fun p => p.1 == k) = true) :
    (m.map (fun p => if p.1 == k then (k, v) else p)).find? (fun p => p.1 == k)
      = some (k, v) := by
  induction m with
  | nil => simp at h
  | cons p ps ih =>
    simp only [List.any_cons, Bool.or_eq_true] at h
    by_cases hp : (p.1 == k) = true
    · simp only [List.map_cons, if_pos hp]
      rw [List.find?_cons_of_pos _ (by simp)]
    · have hps : ps.any (fun p => p.1 == k) = true := by
        rcases h with h1 | h2
        · exact absurd h1 hp
        · exact h2
      simp only [List.map_cons, if_neg hp]
      rw [List.find?_cons_of_neg _ (by simpa using hp)]
      exact ih hps

theorem find?_append_new (m : List (String × TokenEntry)) (k : String) (v : TokenEntry)
    (h : m.any (fun p => p.1 == k) = false) :
    (m ++ [(k, v)]).find? (fun p => p.1 == k) = some (k, v) := by
  induction m with
  | nil => rw [List.nil_append, List.find?_cons_of_pos _ (by simp)]
  | cons p ps ih =>
    simp only [List.any_cons, Bool.or_eq_false_iff] at h
    rw [List.cons_append, List.find?_cons_of_neg _ (by simp [h.1])]
    exact ih h.2

theorem mapGet_mapSet (m : List (String × TokenEntry)) (k : String) (v : TokenEntry) :
    mapGet (mapSet m k v) k = some v := by
  unfold mapGet mapSet
  by_cases h : m.any (fun p => p.1 == k) = true
  · rw [if_pos h, find?_mapSet_replace m k v h]
    rfl
  · rw [if_neg h, find?_append_new m k v (Bool.eq_false_iff.mpr h)]
    rfl

/-- The sequence of `Map.delete` calls performed by the bulk-removal loops. -/
def deleteKeys (s : TokenStorage) (ks : List String) : TokenStorage :=
  ks.foldl (fun st k => (st.delete k).2) s

theorem deleteKeys_spec (ks : List String) : ∀ s : TokenStorage,
    (deleteKeys s ks).storage
        = s.storage.filter (fun p => !ks.any (fun k => p.1 == k))
      ∧ (deleteKeys s ks).tokenCounter = s.tokenCounter := by
  induction ks with
  | nil =>
    intro s
    constructor
    · simp [deleteKeys]
    · rfl
  | cons k ks ih =>
    intro s
    have step : deleteKeys s (k :: ks) = deleteKeys ((s.delete k).2) ks := rfl
    rcases ih ((s.delete k).2) with ⟨h1, h2⟩
    refine ⟨?_, by rw [step, h2]; rfl⟩
    rw [step, h1]
    show (s.storage.filter (fun p => p.1 != k)).filter _ = _
    rw [List.filter_filter]
    apply List.filter_congr
    intro p _
    simp only [List.any_cons, Bool.not_or, bne]
    rw [Bool.and_comm]

theorem foldl_cleanupStep_spec (revoke : String → Except UpstreamError Unit)
    (l : List (String × TokenEntry)) : ∀ a : CleanupResult,
    (l.foldl (cleanupStep revoke) a).cleanedCount = a.cleanedCount + l.length
    ∧ (l.foldl (cleanupStep revoke) a).revokedCount
        = a.revokedCount + l.countP (fun p => GitHubTokenService.revokeToken revoke p.2.token)
    ∧ (l.foldl (cleanupStep revoke) a).storage = deleteKeys a.storage (l.map Prod.fst)
    ∧ (l.foldl (cleanupStep revoke) a).revokeCalls
        = a.revokeCalls ++ l.map (fun p => p.2.token) := by
  induction l with
  | nil => intro a; refine ⟨rfl, by simp, rfl, by simp⟩
  | cons p ps ih =>
    intro a
    rcases ih (cleanupStep revoke a p) with ⟨h1, h2, h3, h4⟩
    refine ⟨?_, ?_, ?_, ?_⟩
    · rw [List.foldl_cons, h1]
      simp only [cleanupStep, List.length_cons]
      omega
    · rw [List.foldl_cons, h2]
      simp only [cleanupStep, List.countP_cons]
      by_cases hr : GitHubTokenService.revokeToken revoke p.2.token = true
      · simp [hr]; omega
      · rw [if_neg (by simp [Bool.eq_false_iff.mpr hr])]
        simp [Bool.eq_false_iff.mpr hr]
    · rw [List.foldl_cons, h3]
      rfl
    · rw [List.foldl_cons, h4]
      simp [cleanupStep]

theorem foldl_ownerDeleteStep_spec (revoke : String → Except UpstreamError Unit)
    (l : List (String × TokenEntry)) : ∀ a : OwnerDeleteAcc,
    (l.foldl (ownerDeleteStep revoke) a).revokedCount
        = a.revokedCount + l.countP (fun p => GitHubTokenService.revokeToken revoke p.2.token)
    ∧ (l.foldl (ownerDeleteStep revoke) a).deletedTokens
        = a.deletedTokens ++ l.map Prod.fst
    ∧ (l.foldl (ownerDeleteStep revoke) a).storage = deleteKeys a.storage (l.map Prod.fst)
    ∧ (l.foldl (ownerDeleteStep revoke) a).revokeCalls
        = a.revokeCalls ++ l.map (fun p => p.2.token) := by
  induction l with
  | nil => intro a; refine ⟨by simp, by simp, rfl, by simp⟩
  | cons p ps ih =>
    intro a
    rcases ih (ownerDeleteStep revoke a p) with ⟨h1, h2, h3, h4⟩
    refine ⟨?_, ?_, ?_, ?_⟩
    · rw [List.foldl_cons, h1]
      simp only [ownerDeleteStep, List.countP_cons]
      by_cases hr : GitHubTokenService.revokeToken revoke p.2.token = true
      · simp [hr]; omega
      · rw [if_neg (by simp [Bool.eq_false_iff.mpr hr])]
        simp [Bool.eq_false_iff.mpr hr]
    · rw [List.foldl_cons, h2]
      simp [ownerDeleteStep]
    · rw [List.foldl_cons, h3]
      rfl
    · rw [List.foldl_cons, h4]
      simp [ownerDeleteStep]

theorem foldl_pairs_delete (l : List (String × TokenEntry)) : ∀ s : TokenStorage,
    l.foldl (fun st p => (st.delete p.1).2) s = deleteKeys s (l.map Prod.fst) := by
  induction l with
  | nil => intro s; rfl
  | cons p ps ih => intro s; exact ih ((s.delete p.1).2)

theorem cleanup_storage (revoke : String → Except UpstreamError Unit) (now : Int)
    (s : TokenStorage) :
    (TokenCleanupService.cleanupExpiredTokens revoke now s).storage.storage
        = s.storage.filter
            (fun p => !((s.getExpiredTokens now).map Prod.fst).any (fun k => p.1 == k))
      ∧ (TokenCleanupService.cleanupExpiredTokens revoke now s).storage.tokenCounter
        = s.tokenCounter := by
  unfold TokenCleanupService.cleanupExpiredTokens
  rcases foldl_cleanupStep_spec revoke (s.getExpiredTokens now)
    { cleanedCount := 0, revokedCount := 0, storage := s, revokeCalls := [] } with ⟨-, -, h3, -⟩
  rcases deleteKeys_spec ((s.getExpiredTokens now).map Prod.fst) s with ⟨hd1, hd2⟩
  rw [h3]
  exact ⟨hd1, hd2⟩

theorem cleanup_counts (revoke : String → Except UpstreamError Unit) (now : Int)
    (s : TokenStorage) :
    (TokenCleanupService.cleanupExpiredTokens revoke now s).cleanedCount
        = (s.getExpiredTokens now).length
      ∧ (TokenCleanupService.cleanupExpiredTokens revoke now s).revokedCount
        = (s.getExpiredTokens now).countP
            (fun p => GitHubTokenService.revokeToken revoke p.2.token)
      ∧ (TokenCleanupService.cleanupExpiredTokens revoke now s).revokeCalls
        = (s.getExpiredTokens now).map (fun p => p.2.token) := by
  unfold TokenCleanupService.cleanupExpiredTokens
  rcases foldl_cleanupStep_spec revoke (s.getExpiredTokens now)
    { cleanedCount := 0, revokedCount := 0, storage := s, revokeCalls := [] } with ⟨h1, h2, -, h4⟩
  refine ⟨by rw [h1]; simp, by rw [h2]; simp, by rw [h4]; simp⟩

theorem cleanup_expired_empty (revoke : String → Except UpstreamError Unit) (now : Int)
    (s : TokenStorage) :
    ((TokenCleanupService.cleanupExpiredTokens revoke now s).storage).getExpiredTokens now
      = [] := by
  show List.filter _ _ = []
  rw [(cleanup_storage revoke now s).1, List.filter_filter]
  rw [List.filter_eq_nil_iff]
  intro p hp
  by_cases hexp : now > p.2.expiresAt
  · have hmem : p ∈ s.getExpiredTokens now :=
      List.mem_filter.mpr ⟨hp, by simpa using hexp⟩
    have hkey : ((s.getExpiredTokens now).map Prod.fst).any (fun k => p.1 == k) = true :=
      List.any_eq_true.mpr ⟨p.1, List.mem_map_of_mem Prod.fst hmem, by simp⟩
    simp [hkey]
  · simp [hexp]

/-- Every key in the registry is a generated id whose embedded counter is at
most the current counter — the invariant that makes freshly generated ids new
keys. -/
def countersBounded (s : TokenStorage) : Prop :=
  ∀ p ∈ s.storage, ∃ c t, p.1 = generateTokenId c t ∧ c ≤ s.tokenCounter

theorem countersBounded_init : countersBounded TokenStorage.init := by
  intro p hp
  simp [TokenStorage.init] at hp

theorem store_fresh (s : TokenStorage) (now : Int) (hb : countersBounded s) :
    s.storage.any (fun p => p.1 == generateTokenId (s.tokenCounter + 1) now) = false := by
  by_contra h
  have h' := Bool.not_eq_false _ |>.mp h
  obtain ⟨p, hp, hbeq⟩ := List.any_eq_true.mp h'
  obtain ⟨c, t, hid, hle⟩ := hb p hp
  have : generateTokenId c t = generateTokenId (s.tokenCounter + 1) now := by
    rw [← hid]; exact eq_of_beq hbeq
  have := generateTokenId_inj_counter this
  omega

theorem store_storage_append (s : TokenStorage) (now : Int) (e : TokenEntryInput)
    (hb : countersBounded s) :
    ((s.store now e).2).storage = s.storage ++ [(generateTokenId (s.tokenCounter + 1) now,
      (s.store now e).1)] := by
  show mapSet s.storage _ _ = _
  unfold mapSet
  rw [if_neg (by rw [store_fresh s now hb]; simp)]
  rfl

theorem store_size (s : TokenStorage) (now : Int) (e : TokenEntryInput)
    (hb : countersBounded s) :
    ((s.store now e).2).size = s.size + 1 := by
  show ((s.store now e).2).storage.length = s.storage.length + 1
  rw [store_storage_append s now e hb]
  simp

theorem store_bounded (s : TokenStorage) (now : Int) (e : TokenEntryInput)
    (hb : countersBounded s) :
    countersBounded ((s.store now e).2) := by
  intro p hp
  rw [store_storage_append s now e hb] at hp
  have hcnt : ((s.store now e).2).tokenCounter = s.tokenCounter + 1 := rfl
  rcases List.mem_append.mp hp with hold | hnew
  · obtain ⟨c, t, hid, hle⟩ := hb p hold
    exact ⟨c, t, hid, by omega⟩
  · have : p = (generateTokenId (s.tokenCounter + 1) now, (s.store now e).1) := by
      simpa using hnew
    exact ⟨s.tokenCounter + 1, now, by rw [this], by omega⟩

/-- A registry operation, for stating trace properties of the id generator. -/
inductive StorageOp where
  | storeOp (tokenEntry : TokenEntryInput) (now : Int)
  | deleteOp (tokenId : String)
  | deleteByClientOp (clientId : String)
  | clearOp

/-- Runs a sequence of registry operations, collecting the entries returned by
the `store` calls in order. -/
def runOps : TokenStorage → List StorageOp → TokenStorage × List TokenEntry
  | s, [] => (s, [])
  | s, StorageOp.storeOp e now :: rest =>
      let r := s.store now e
      let q := runOps r.2 rest
      (q.1, r.1 :: q.2)
  | s, StorageOp.deleteOp tokenId :: rest => runOps (s.delete tokenId).2 rest
  | s, StorageOp.deleteByClientOp clientId :: rest =>
      runOps (s.deleteByClientId clientId).2 rest
  | s, StorageOp.clearOp :: rest => runOps (s.clear).2 rest

theorem deleteByClientId_counter (s : TokenStorage) (clientId : String) :
    ((s.deleteByClientId clientId).2).tokenCounter = s.tokenCounter := by
  show (List.foldl _ s _).tokenCounter = s.tokenCounter
  rw [foldl_pairs_delete]
  exact (deleteKeys_spec _ s).2

theorem runOps_entry_counters (ops : List StorageOp) : ∀ s : TokenStorage,
    (∀ e now, StorageOp.storeOp e now ∈ ops → e.tokenId? = none) →
    (∀ en ∈ (runOps s ops).2, s.tokenCounter < idCounter en.tokenId)
      ∧ ((runOps s ops).2.map (fun en => idCounter en.tokenId)).Pairwise (· < ·) := by
  induction ops with
  | nil =>
    intro s _
    exact ⟨by intro en hen; simp [runOps] at hen, by simp [runOps]⟩
  | cons op rest ih =>
    intro s hnone
    cases op with
    | storeOp e now =>
      have he : e.tokenId? = none := hnone e now (List.mem_cons_self _ _)
      have hid : ((s.store now e).1).tokenId = generateTokenId (s.tokenCounter + 1) now := by
        simp [TokenStorage.store, he]
      have hcnt : ((s.store now e).2).tokenCounter = s.tokenCounter + 1 := rfl
      obtain ⟨ih1, ih2⟩ := ih ((s.store now e).2)
        (fun e' n' h' => hnone e' n' (List.mem_cons_of_mem _ h'))
      have hhead : idCounter ((s.store now e).1).tokenId = s.tokenCounter + 1 := by
        rw [hid, idCounter_generateTokenId]
      constructor
      · intro en hen
        simp only [runOps] at hen
        rcases List.mem_cons.mp hen with rfl | htail
        · rw [hhead]; omega
        · have := ih1 en htail
          omega
      · simp only [runOps, List.map_cons]
        rw [List.pairwise_cons]
        constructor
        · intro x hx
          obtain ⟨en, hen, rfl⟩ := List.mem_map.mp hx
          have := ih1 en hen
          rw [hhead]
          omega
        · exact ih2
    | deleteOp tokenId =>
      have hcnt : ((s.delete tokenId).2).tokenCounter = s.tokenCounter := rfl
      obtain ⟨ih1, ih2⟩ := ih ((s.delete tokenId).2)
        (fun e' n' h' => hnone e' n' (List.mem_cons_of_mem _ h'))
      exact ⟨fun en hen => by rw [← hcnt]; exact ih1 en hen, ih2⟩
    | deleteByClientOp clientId =>
      have hcnt := deleteByClientId_counter s clientId
      obtain ⟨ih1, ih2⟩ := ih ((s.deleteByClientId clientId).2)
        (fun e' n' h' => hnone e' n' (List.mem_cons_of_mem _ h'))
      exact ⟨fun en hen => by rw [← hcnt]; exact ih1 en hen, ih2⟩
    | clearOp =>
      have hcnt : ((s.clear).2).tokenCounter = s.tokenCounter := rfl
      obtain ⟨ih1, ih2⟩ := ih ((s.clear).2)
        (fun e' n' h' => hnone e' n' (List.mem_cons_of_mem _ h'))
      exact ⟨fun en hen => by rw [← hcnt]; exact ih1 en hen, ih2⟩

theorem runOps_store_only_size (es : List (TokenEntryInput × Int)) : ∀ s : TokenStorage,
    countersBounded s →
    ((runOps s (es.map (fun p => StorageOp.storeOp p.1 p.2))).1).size
      = s.size + es.length := by
  induction es with
  | nil => intro s _; rfl
  | cons p ps ih =>
    intro s hb
    simp only [List.map_cons, runOps]
    rw [ih ((s.store p.2 p.1).2) (store_bounded s p.2 p.1 hb)]
    rw [store_size s p.2 p.1 hb]
    simp [List.length_cons]
    omega

theorem delete_has_self (s : TokenStorage) (tokenId : String) :
    ((s.delete tokenId).2).has tokenId = false := by
  show (s.storage.filter (fun p => p.1 != tokenId)).any (fun p => p.1 == tokenId) = false
  rw [List.any_eq_false]
  intro p hp
  have := (List.mem_filter.mp hp).2
  simp at this ⊢
  exact this

theorem filter_removed_empty (l : List (String × TokenEntry)) (q : String × TokenEntry → Bool) :
    (l.filter (fun p => !((l.filter q).map Prod.fst).any (fun k => p.1 == k))).filter q
      = [] := by
  rw [List.filter_filter, List.filter_eq_nil_iff]
  intro p hp
  by_cases hq : q p = true
  · have hmem : p ∈ l.filter q := List.mem_filter.mpr ⟨hp, hq⟩
    have hkey : ((l.filter q).map Prod.fst).any (fun k => p.1 == k) = true :=
      List.any_eq_true.mpr ⟨p.1, List.mem_map_of_mem Prod.fst hmem, by simp⟩
    simp [hkey]
  · simp [hq]

theorem deleteKeys_eq (ks : List String) (s : TokenStorage) :
    deleteKeys s ks
      = { storage := s.storage.filter (fun p => !ks.any (fun k => p.1 == k))
          tokenCounter := s.tokenCounter } := by
  rcases deleteKeys_spec ks s with ⟨h1, h2⟩
  calc deleteKeys s ks
      = ⟨(deleteKeys s ks).storage, (deleteKeys s ks).tokenCounter⟩ := rfl
    _ = _ := by rw [h1, h2]

theorem getAll_length (s : TokenStorage) : s.getAll.length = s.size := by
  simp [TokenStorage.getAll, TokenStorage.size]

theorem handleTokenDeletion_found (revoke : String → Except UpstreamError Unit)
    (s : TokenStorage) (identifier : String) (entry : TokenEntry)
    (h : s.get identifier = some entry) :
    ApiRoutes.handleTokenDeletion revoke s identifier
      = { response :=
            { status := 200
              success := true
              message := "Token " ++ identifier ++ " deleted" ++
                (if GitHubTokenService.revokeToken revoke entry.token then " and revoked"
                 else " (revocation failed)")
              tokenId := some identifier
              clientId := some entry.clientId
              revoked := some (GitHubTokenService.revokeToken revoke entry.token) }
          storage := (s.delete identifier).2
          revokeCalls := [entry.token] } := by
  unfold ApiRoutes.handleTokenDeletion
  rw [h]

theorem handleTokenDeletion_owner (revoke : String → Except UpstreamError Unit)
    (s : TokenStorage) (identifier : String)
    (h : s.get identifier = none) (hne : s.getByClientId identifier ≠ []) :
    ApiRoutes.handleTokenDeletion revoke s identifier
      = { response :=
            { status := 200
              success := true
              message := "Deleted " ++ toString (s.getByClientId identifier).length ++
                " tokens for client: " ++ identifier ++ " (" ++
                toString ((s.getByClientId identifier).countP
                  (fun p => GitHubTokenService.revokeToken revoke p.2.token)) ++ " revoked)"
              clientId := some identifier
              deletedTokens := some ((s.getByClientId identifier).map Prod.fst)
              revokedCount := some ((s.getByClientId identifier).countP
                (fun p => GitHubTokenService.revokeToken revoke p.2.token)) }
          storage :=
            { storage := s.storage.filter
                (fun p => !((s.getByClientId identifier).map Prod.fst).any (fun k => p.1 == k))
              tokenCounter := s.tokenCounter }
          revokeCalls := (s.getByClientId identifier).map (fun p => p.2.token) } := by
  unfold ApiRoutes.handleTokenDeletion
  rw [h]
  dsimp only []
  rw [if_neg (by simpa [List.isEmpty_iff] using hne)]
  rcases foldl_ownerDeleteStep_spec revoke (s.getByClientId identifier)
    { revokedCount := 0, deletedTokens := [], storage := s, revokeCalls := [] }
    with ⟨h1, h2, h3, h4⟩
  rw [h1, h2, h3, h4, deleteKeys_eq]
  simp

theorem handleTokenDeletion_notfound (revoke : String → Except UpstreamError Unit)
    (s : TokenStorage) (identifier : String)
    (h : s.get identifier = none) (hemp : s.getByClientId identifier = []) :
    ApiRoutes.handleTokenDeletion revoke s identifier
      = { response :=
            { status := 200
              success := false
              message := "No tokens found for identifier: " ++ identifier }
          storage := s
          revokeCalls := [] } := by
  unfold ApiRoutes.handleTokenDeletion
  rw [h]
  rw [if_pos (by simp [hemp])]

theorem cleanup_of_no_expired (revoke : String → Except UpstreamError Unit) (now : Int)
    (t : TokenStorage) (h : t.getExpiredTokens now = []) :
    TokenCleanupService.cleanupExpiredTokens revoke now t
      = { cleanedCount := 0, revokedCount := 0, storage := t, revokeCalls := [] } := by
  unfold TokenCleanupService.cleanupExpiredTokens
  rw [h]
  rfl

/-! ## Claim theorems -/

/-- C1: issuing at local time `now` with configured lifespan `config.tokenLifespan`
stores a record whose `expiresAt` is exactly `now + config.tokenLifespan`; the
provider's own reported expiry (`resp.expires_at`, quantified arbitrarily here)
is never used for the stored `expiresAt`. -/
theorem c1_expiresAt_is_local_issuance_plus_lifespan (config : Config) (s : TokenStorage)
    (now : Int) (clientId : String) (repositories : JsValue) (resp : GitHubExchangeOk) :
    ∃ entry s' calls,
      ApiRoutes.getTokenForClient config s now (fun _ => Except.ok resp) clientId repositories
          = (Except.ok (entry, s'), calls)
        ∧ entry.expiresAt = now + config.tokenLifespan
        ∧ s'.get (generateTokenId (s.tokenCounter + 1) now) = some entry := by
  refine ⟨_, _, _, rfl, rfl, ?_⟩
  exact mapGet_mapSet _ _ _

/-- C3: a second `cleanupExpiredTokens` run at the same observation time, with no
issuance in between, does nothing: zero removals, zero revocations, no upstream
revoke calls, registry unchanged. -/
theorem c3_sweep_idempotent (revoke : String → Except UpstreamError Unit) (now : Int)
    (s : TokenStorage) :
    TokenCleanupService.cleanupExpiredTokens revoke now
        (TokenCleanupService.cleanupExpiredTokens revoke now s).storage
      = { cleanedCount := 0, revokedCount := 0
          storage := (TokenCleanupService.cleanupExpiredTokens revoke now s).storage
          revokeCalls := [] } :=
  cleanup_of_no_expired revoke now _ (cleanup_expired_empty revoke now s)

/-- C7: when the upstream exchange fails, `generateInstallationToken` fails with
the provider's error (status/body/message) unchanged, `getTokenForClient`
propagates it unchanged, and the `GET /token` handler turns it into a 500
response with `success:false`, leaving the registry untouched and performing
exactly one (unretried) exchange call. -/
theorem c7_upstream_exchange_error (config : Config) (s : TokenStorage) (now : Int)
    (err : UpstreamError) (clientIdParam : Option String) (repositories : JsValue) :
    (GitHubTokenService.generateInstallationToken config now (fun _ => Except.error err)
        repositories).1 = Except.error err
    ∧ (ApiRoutes.getTokenForClient config s now (fun _ => Except.error err) "default"
        repositories).1 = Except.error err
    ∧ (ApiRoutes.handleGetToken config s now (fun _ => Except.error err)
        clientIdParam).response.status = 500
    ∧ (ApiRoutes.handleGetToken config s now (fun _ => Except.error err)
        clientIdParam).response.success = false
    ∧ (ApiRoutes.handleGetToken config s now (fun _ => Except.error err)
        clientIdParam).response.message = some err.message
    ∧ (ApiRoutes.handleGetToken config s now (fun _ => Except.error err)
        clientIdParam).storage = s
    ∧ (ApiRoutes.handleGetToken config s now (fun _ => Except.error err)
        clientIdParam).exchangeCalls.length = 1 :=
  ⟨rfl, rfl, rfl, rfl, rfl, rfl, rfl⟩

/-- C8: every minted assertion has `iat = Math.floor(now / 1000)` (the current
time in whole seconds), issuer equal to the configured application id, and an
expiry exactly 9 minutes after `iat` — strictly under the provider's 10-minute
ceiling. -/
theorem c8_jwt_claims (config : Config) (now : Int) :
    (GitHubTokenService.generateJWT config now).iat = Int.fdiv now 1000
    ∧ (GitHubTokenService.generateJWT config now).iss = config.appId
    ∧ (GitHubTokenService.generateJWT config now).exp
        = (GitHubTokenService.generateJWT config now).iat + 9 * 60
    ∧ (GitHubTokenService.generateJWT config now).exp
        - (GitHubTokenService.generateJWT config now).iat < 10 * 60 := by
  refine ⟨rfl, rfl, rfl, ?_⟩
  show Int.fdiv now 1000 + 9 * 60 - Int.fdiv now 1000 < 10 * 60
  omega

/-- C10: `TokenStorage.store` always overwrites `createdAt` with the insertion
clock value (the caller's `createdAt` is ignored), always stores the entry
under the freshly generated id as the map key, and — because the caller's
object is spread after the generated `tokenId` — a caller-supplied `tokenId`
overrides the generated one inside the entry, which can therefore differ from
the key it is stored under. -/
theorem c10_store_spread_semantics (s : TokenStorage) (now : Int) (e : TokenEntryInput) :
    ((s.store now e).1).createdAt = now
    ∧ mapGet ((s.store now e).2).storage (generateTokenId (s.tokenCounter + 1) now)
        = some (s.store now e).1
    ∧ ((s.store now e).1).tokenId = e.tokenId?.getD (generateTokenId (s.tokenCounter + 1) now)
    ∧ ∃ (s₀ : TokenStorage) (now₀ : Int) (e₀ : TokenEntryInput),
        ((s₀.store now₀ e₀).1).tokenId ≠ generateTokenId (s₀.tokenCounter + 1) now₀ := by
  refine ⟨rfl, mapGet_mapSet _ _ _, rfl, ?_⟩
  refine ⟨TokenStorage.init, 0, ⟨some "custom", "c", "t", 1, none, false⟩, ?_⟩
  decide

/-- C2: for every registry state and every behaviour of the upstream revoke
call, `revokeToken` returns `false` (never throws) on failure, and delete-by-id,
delete-by-owner, clear-all, and the sweep each still remove the targeted
record(s) from local storage unconditionally, reporting `revoked:false` /
a reduced `revokedCount` instead of raising an error. -/
theorem c2_local_removal_unconditional :
    (∀ (revoke : String → Except UpstreamError Unit) (t : String) (e : UpstreamError),
        revoke t = Except.error e → GitHubTokenService.revokeToken revoke t = false)
    ∧ (∀ revoke (s : TokenStorage) identifier entry, s.get identifier = some entry →
        (ApiRoutes.handleTokenDeletion revoke s identifier).storage.has identifier = false
          ∧ (ApiRoutes.handleTokenDeletion revoke s identifier).response.success = true
          ∧ (ApiRoutes.handleTokenDeletion revoke s identifier).response.revoked
              = some (GitHubTokenService.revokeToken revoke entry.token)
          ∧ (ApiRoutes.handleTokenDeletion revoke s identifier).revokeCalls = [entry.token])
    ∧ (∀ revoke (s : TokenStorage) identifier, s.get identifier = none →
        s.getByClientId identifier ≠ [] →
        (ApiRoutes.handleTokenDeletion revoke s identifier).storage.getByClientId identifier
            = []
          ∧ (ApiRoutes.handleTokenDeletion revoke s identifier).storage.storage
              = s.storage.filter
                  (fun p => !((s.getByClientId identifier).map Prod.fst).any (fun k => p.1 == k))
          ∧ (ApiRoutes.handleTokenDeletion revoke s identifier).response.success = true
          ∧ (ApiRoutes.handleTokenDeletion revoke s identifier).response.revokedCount
              = some ((s.getByClientId identifier).countP
                  (fun p => GitHubTokenService.revokeToken revoke p.2.token)))
    ∧ (∀ revoke (s : TokenStorage),
        (ApiRoutes.handleClearAllTokens revoke s).storage.storage = []
          ∧ (ApiRoutes.handleClearAllTokens revoke s).response.revokedCount
              = some (s.getAll.countP
                  (fun td => GitHubTokenService.revokeToken revoke td.token))
          ∧ (ApiRoutes.handleClearAllTokens revoke s).response.cleared = some s.size)
    ∧ (∀ revoke (now : Int) (s : TokenStorage),
        (TokenCleanupService.cleanupExpiredTokens revoke now s).storage.getExpiredTokens now
            = []
          ∧ (TokenCleanupService.cleanupExpiredTokens revoke now s).cleanedCount
              = (s.getExpiredTokens now).length
          ∧ (TokenCleanupService.cleanupExpiredTokens revoke now s).revokedCount
              = (s.getExpiredTokens now).countP
                  (fun p => GitHubTokenService.revokeToken revoke p.2.token)) := by
  refine ⟨?_, ?_, ?_, ?_, ?_⟩
  · intro revoke t e h
    simp [GitHubTokenService.revokeToken, h]
  · intro revoke s identifier entry h
    rw [handleTokenDeletion_found revoke s identifier entry h]
    exact ⟨delete_has_self s identifier, rfl, rfl, rfl⟩
  · intro revoke s identifier h hne
    rw [handleTokenDeletion_owner revoke s identifier h hne]
    refine ⟨?_, rfl, rfl, rfl⟩
    exact filter_removed_empty s.storage (fun p => p.2.clientId == identifier)
  · intro revoke s
    refine ⟨rfl, rfl, ?_⟩
    show some s.getAll.length = some s.size
    rw [getAll_length]
  · intro revoke now s
    exact ⟨cleanup_expired_empty revoke now s, (cleanup_counts revoke now s).1,
      (cleanup_counts revoke now s).2.1⟩

/-- Witness for C2: a concrete registry and an always-failing upstream revoke;
deletion by id still removes the record and reports `revoked := some false`. -/
theorem c2_local_removal_unconditional_witness :
    GitHubTokenService.revokeToken (fun _ => Except.error ⟨502, "bad gateway", "fail"⟩)
        "secA" = false
    ∧ (ApiRoutes.handleTokenDeletion (fun _ => Except.error ⟨502, "bad gateway", "fail"⟩)
        ⟨[("idA", ⟨"idA", "app1", "secA", 10, 5, false⟩)], 1⟩ "idA").storage.has "idA"
        = false
    ∧ (ApiRoutes.handleTokenDeletion (fun _ => Except.error ⟨502, "bad gateway", "fail"⟩)
        ⟨[("idA", ⟨"idA", "app1", "secA", 10, 5, false⟩)], 1⟩ "idA").response.revoked
        = some false :=
  ⟨c2_local_removal_unconditional.1 _ "secA" ⟨502, "bad gateway", "fail"⟩ rfl,
   (c2_local_removal_unconditional.2.1 _
      ⟨[("idA", ⟨"idA", "app1", "secA", 10, 5, false⟩)], 1⟩ "idA"
      ⟨"idA", "app1", "secA", 10, 5, false⟩ rfl).1,
   (c2_local_removal_unconditional.2.1 _
      ⟨[("idA", ⟨"idA", "app1", "secA", 10, 5, false⟩)], 1⟩ "idA"
      ⟨"idA", "app1", "secA", 10, 5, false⟩ rfl).2.2.1⟩

/-- C6: `DELETE /tokens/:identifier` deletes the single matching record when the
identifier is a stored token id, else deletes all records of the matching
owner, clears the whole registry when the identifier is omitted, and when
nothing matches answers `success:false` with an explanatory message at HTTP
200, leaving the registry unchanged and attempting no upstream revocation. -/
theorem c6_delete_route_branches :
    (∀ revoke (s : TokenStorage) identifier entry, identifier ≠ "" →
        s.get identifier = some entry →
        (ApiRoutes.deleteTokensRoute revoke s (some identifier)).storage
            = (s.delete identifier).2
          ∧ (ApiRoutes.deleteTokensRoute revoke s (some identifier)).response.success = true
          ∧ (ApiRoutes.deleteTokensRoute revoke s (some identifier)).response.status = 200)
    ∧ (∀ revoke (s : TokenStorage) identifier, identifier ≠ "" →
        s.get identifier = none → s.getByClientId identifier ≠ [] →
        (ApiRoutes.deleteTokensRoute revoke s (some identifier)).storage.storage
            = s.storage.filter
                (fun p => !((s.getByClientId identifier).map Prod.fst).any (fun k => p.1 == k))
          ∧ (ApiRoutes.deleteTokensRoute revoke s (some identifier)).storage.getByClientId
              identifier = []
          ∧ (ApiRoutes.deleteTokensRoute revoke s (some identifier)).response.success = true
          ∧ (ApiRoutes.deleteTokensRoute revoke s (some identifier)).response.status = 200)
    ∧ (∀ revoke (s : TokenStorage),
        (ApiRoutes.deleteTokensRoute revoke s none).storage.storage = []
          ∧ (ApiRoutes.deleteTokensRoute revoke s none).response.success = true
          ∧ (ApiRoutes.deleteTokensRoute revoke s none).response.status = 200
          ∧ (ApiRoutes.deleteTokensRoute revoke s none).response.cleared = some s.size)
    ∧ (∀ revoke (s : TokenStorage) identifier, identifier ≠ "" →
        s.get identifier = none → s.getByClientId identifier = [] →
        (ApiRoutes.deleteTokensRoute revoke s (some identifier)).response.success = false
          ∧ (ApiRoutes.deleteTokensRoute revoke s (some identifier)).response.status = 200
          ∧ (ApiRoutes.deleteTokensRoute revoke s (some identifier)).response.message
              = "No tokens found for identifier: " ++ identifier
          ∧ (ApiRoutes.deleteTokensRoute revoke s (some identifier)).storage = s
          ∧ (ApiRoutes.deleteTokensRoute revoke s (some identifier)).revokeCalls = []) := by
  have hroute : ∀ revoke (s : TokenStorage) identifier, identifier ≠ "" →
      ApiRoutes.deleteTokensRoute revoke s (some identifier)
        = ApiRoutes.handleTokenDeletion revoke s identifier := by
    intro revoke s identifier hne
    unfold ApiRoutes.deleteTokensRoute
    dsimp only []
    rw [if_neg (by simpa using hne)]
  refine ⟨?_, ?_, ?_, ?_⟩
  · intro revoke s identifier entry hne h
    rw [hroute revoke s identifier hne,
      handleTokenDeletion_found revoke s identifier entry h]
    exact ⟨rfl, rfl, rfl⟩
  · intro revoke s identifier hne h hcl
    rw [hroute revoke s identifier hne,
      handleTokenDeletion_owner revoke s identifier h hcl]
    refine ⟨rfl, ?_, rfl, rfl⟩
    exact filter_removed_empty s.storage (fun p => p.2.clientId == identifier)
  · intro revoke s
    refine ⟨rfl, rfl, rfl, ?_⟩
    show some s.getAll.length = some s.size
    rw [getAll_length]
  · intro revoke s identifier hne h hemp
    rw [hroute revoke s identifier hne,
      handleTokenDeletion_notfound revoke s identifier h hemp]
    exact ⟨rfl, rfl, rfl, rfl, rfl⟩

/-- Witness for C6: all four route branches exercised on a concrete registry
holding records for two owners, with an always-failing revoke oracle. -/
theorem c6_delete_route_branches_witness :
    (ApiRoutes.deleteTokensRoute (fun _ => Except.error ⟨500, "boom", "boom"⟩)
        ⟨[("idA", ⟨"idA", "app1", "secA", 10, 5, false⟩),
          ("idB", ⟨"idB", "app1", "secB", 20, 6, false⟩),
          ("idC", ⟨"idC", "app2", "secC", 30, 7, false⟩)], 3⟩ (some "idA")).storage
        = (TokenStorage.delete
            ⟨[("idA", ⟨"idA", "app1", "secA", 10, 5, false⟩),
              ("idB", ⟨"idB", "app1", "secB", 20, 6, false⟩),
              ("idC", ⟨"idC", "app2", "secC", 30, 7, false⟩)], 3⟩ "idA").2
    ∧ (ApiRoutes.deleteTokensRoute (fun _ => Except.error ⟨500, "boom", "boom"⟩)
        ⟨[("idA", ⟨"idA", "app1", "secA", 10, 5, false⟩),
          ("idB", ⟨"idB", "app1", "secB", 20, 6, false⟩),
          ("idC", ⟨"idC", "app2", "secC", 30, 7, false⟩)], 3⟩
        (some "app1")).storage.getByClientId "app1" = []
    ∧ (ApiRoutes.deleteTokensRoute (fun _ => Except.error ⟨500, "boom", "boom"⟩)
        ⟨[("idA", ⟨"idA", "app1", "secA", 10, 5, false⟩)], 1⟩ none).storage.storage = []
    ∧ (ApiRoutes.deleteTokensRoute (fun _ => Except.error ⟨500, "boom", "boom"⟩)
        ⟨[("idA", ⟨"idA", "app1", "secA", 10, 5, false⟩)], 1⟩ (some "nope")).response.success
        = false
    ∧ (ApiRoutes.deleteTokensRoute (fun _ => Except.error ⟨500, "boom", "boom"⟩)
        ⟨[("idA", ⟨"idA", "app1", "secA", 10, 5, false⟩)], 1⟩ (some "nope")).revokeCalls
        = [] :=
  ⟨(c6_delete_route_branches.1 (fun _ => Except.error ⟨500, "boom", "boom"⟩)
      ⟨[("idA", ⟨"idA", "app1", "secA", 10, 5, false⟩),
        ("idB", ⟨"idB", "app1", "secB", 20, 6, false⟩),
        ("idC", ⟨"idC", "app2", "secC", 30, 7, false⟩)], 3⟩ "idA"
      ⟨"idA", "app1", "secA", 10, 5, false⟩ (by decide) rfl).1,
   (c6_delete_route_branches.2.1 (fun _ => Except.error ⟨500, "boom", "boom"⟩)
      ⟨[("idA", ⟨"idA", "app1", "secA", 10, 5, false⟩),
        ("idB", ⟨"idB", "app1", "secB", 20, 6, false⟩),
        ("idC", ⟨"idC", "app2", "secC", 30, 7, false⟩)], 3⟩ "app1"
      (by decide) rfl (by decide)).2.1,
   (c6_delete_route_branches.2.2.1 (fun _ => Except.error ⟨500, "boom", "boom"⟩)
      ⟨[("idA", ⟨"idA", "app1", "secA", 10, 5, false⟩)], 1⟩).1,
   (c6_delete_route_branches.2.2.2 (fun _ => Except.error ⟨500, "boom", "boom"⟩)
      ⟨[("idA", ⟨"idA", "app1", "secA", 10, 5, false⟩)], 1⟩ "nope"
      (by decide) rfl rfl).1,
   (c6_delete_route_branches.2.2.2 (fun _ => Except.error ⟨500, "boom", "boom"⟩)
      ⟨[("idA", ⟨"idA", "app1", "secA", 10, 5, false⟩)], 1⟩ "nope"
      (by decide) rfl rfl).2.2.2.2⟩

/-- C4: over any operation sequence whose insertions do not themselves carry a
`tokenId` property, the returned ids are pairwise distinct and their embedded
generation counters strictly increase in assignment order — even across
deletions and clears, so ids are never reused; and `size` after `N` insertions
into a fresh registry (no deletions) equals `N`. -/
theorem c4_ids_distinct_monotone_size :
    (∀ (s : TokenStorage) (ops : List StorageOp),
        (∀ e now, StorageOp.storeOp e now ∈ ops → e.tokenId? = none) →
        ((runOps s ops).2.map (fun en => idCounter en.tokenId)).Pairwise (· < ·)
          ∧ ((runOps s ops).2.map (fun en => en.tokenId)).Pairwise (· ≠ ·))
    ∧ (∀ es : List (TokenEntryInput × Int),
        ((runOps TokenStorage.init (es.map (fun p => StorageOp.storeOp p.1 p.2))).1).size
          = es.length) := by
  constructor
  · intro s ops h
    obtain ⟨-, h2⟩ := runOps_entry_counters ops s h
    refine ⟨h2, ?_⟩
    rw [List.pairwise_map] at h2 ⊢
    refine h2.imp ?_
    intro a b hlt heq
    rw [heq] at hlt
    omega
  · intro es
    rw [runOps_store_only_size es TokenStorage.init countersBounded_init]
    simp [TokenStorage.init, TokenStorage.size]

/-- Witness for C4: three insertions interleaved with a clear still return
pairwise distinct ids, and two insertions into a fresh registry give size 2. -/
theorem c4_ids_distinct_monotone_size_witness :
    ((runOps TokenStorage.init
        [StorageOp.storeOp ⟨none, "app1", "t1", 100, none, false⟩ 5,
         StorageOp.clearOp,
         StorageOp.storeOp ⟨none, "app2", "t2", 200, none, false⟩ 7]).2.map
        (fun en => en.tokenId)).Pairwise (· ≠ ·)
    ∧ ((runOps TokenStorage.init
        (([(⟨none, "app1", "t1", 100, none, false⟩, (5 : Int)),
           (⟨none, "app2", "t2", 200, none, false⟩, (7 : Int))] :
            List (TokenEntryInput × Int)).map
          (fun p => StorageOp.storeOp p.1 p.2))).1).size = 2 :=
  ⟨(c4_ids_distinct_monotone_size.1 TokenStorage.init
      [StorageOp.storeOp ⟨none, "app1", "t1", 100, none, false⟩ 5,
       StorageOp.clearOp,
       StorageOp.storeOp ⟨none, "app2", "t2", 200, none, false⟩ 7]
      (by
        intro e now h
        simp only [List.mem_cons, List.not_mem_nil, or_false] at h
        rcases h with h | h | h
        · cases h; rfl
        · cases h
        · cases h; rfl)).2,
   (c4_ids_distinct_monotone_size.2
      ([(⟨none, "app1", "t1", 100, none, false⟩, (5 : Int)),
        (⟨none, "app2", "t2", 200, none, false⟩, (7 : Int))] :
          List (TokenEntryInput × Int))).trans rfl⟩

theorem handlePostToken_arr_spec (config : Config) (s : TokenStorage) (now : Int)
    (exchange : Option JsValue → Except UpstreamError GitHubExchangeOk)
    (clientIdParam : Option String) :
    (ApiRoutes.handlePostToken config s now exchange clientIdParam
        (JsValue.arr [])).exchangeCalls = [none]
    ∧ ((ApiRoutes.handlePostToken config s now exchange clientIdParam
          (JsValue.arr [])).response.status = 200
        ∨ (ApiRoutes.handlePostToken config s now exchange clientIdParam
          (JsValue.arr [])).response.status = 500) := by
  unfold ApiRoutes.handlePostToken
  rw [if_neg (by decide)]
  unfold ApiRoutes.getTokenForClient GitHubTokenService.generateInstallationToken
  dsimp only []
  rw [show exchangeRequestBody (JsValue.arr []) = none from rfl]
  cases exchange none with
  | ok resp => exact ⟨rfl, Or.inl rfl⟩
  | error e => exact ⟨rfl, Or.inr rfl⟩

/-- C9: a `POST /token` body with `repositories: []` passes validation (no 400),
the upstream exchange request body omits the `repositories` key entirely (the
single exchange call carries `none`, exactly as for an absent list), and the
success response still echoes the empty array rather than `'all'`. -/
theorem c9_empty_repositories_array (config : Config) (s : TokenStorage) (now : Int)
    (clientIdParam : Option String)
    (exchange : Option JsValue → Except UpstreamError GitHubExchangeOk) :
    (ApiRoutes.handlePostToken config s now exchange clientIdParam
        (JsValue.arr [])).response.status ≠ 400
    ∧ (ApiRoutes.handlePostToken config s now exchange clientIdParam
        (JsValue.arr [])).exchangeCalls = [none]
    ∧ (∀ resp, (ApiRoutes.handlePostToken config s now (fun _ => Except.ok resp)
          clientIdParam (JsValue.arr [])).response.status = 200
        ∧ (ApiRoutes.handlePostToken config s now (fun _ => Except.ok resp)
            clientIdParam (JsValue.arr [])).response.repositories
          = some (JsValue.arr [])) := by
  obtain ⟨hc, hs⟩ := handlePostToken_arr_spec config s now exchange clientIdParam
  refine ⟨?_, hc, fun resp => ⟨rfl, rfl⟩⟩
  rcases hs with h | h <;> simp [h]

/-- Counterexample to C5: no configuration check constrains `tokenLifespan`.
A configuration whose `tokenLifespan` is `-1000` passes
`ConfigValidator.validate` (so startup is not prevented), and a record issued
under it has `expiresAt < createdAt`. -/
theorem c5_lifespan_not_validated_counterexample :
    ConfigValidator.validate (fun _ => true)
        (ConfigValidator.loadDefaults
          { appId := some "app-1", installationId := some "inst-1",
            privateKeyPath := some "/key.pem", tokenLifespan := some (-1000) }
          {}) = Except.ok ()
    ∧ (ConfigValidator.loadDefaults
        { appId := some "app-1", installationId := some "inst-1",
          privateKeyPath := some "/key.pem", tokenLifespan := some (-1000) }
        {}).tokenLifespan = -1000
    ∧ ∃ entry s' calls,
        ApiRoutes.getTokenForClient
            (ConfigValidator.loadDefaults
              { appId := some "app-1", installationId := some "inst-1",
                privateKeyPath := some "/key.pem", tokenLifespan := some (-1000) }
              {})
            TokenStorage.init 5000
            (fun _ => Except.ok ⟨"ghs_tok", "2030-01-01T00:00:00Z", [], "all"⟩)
            "default" JsValue.null
          = (Except.ok (entry, s'), calls)
        ∧ entry.expiresAt < entry.createdAt := by
  refine ⟨rfl, rfl, _, _, _, rfl, ?_⟩
  decide

/-- C5 amended: configuration validation checks only that the app id and
installation id are truthy and the private-key file exists — `tokenLifespan`
is not validated, so a non-positive lifespan is not rejected at startup (see
the counterexample); records satisfy `expiresAt > createdAt` exactly when the
configured lifespan is positive. -/
theorem c5_validation_ignores_lifespan_amended :
    (∀ (existsSync : Option String → Bool) (config : Config),
        ConfigValidator.validate existsSync config = Except.ok ()
          ↔ (optStrTruthy config.appId = true ∧ optStrTruthy config.installationId = true
              ∧ existsSync config.privateKeyPath = true))
    ∧ (∀ (config : Config) (s : TokenStorage) (now : Int)
        (exchange : Option JsValue → Except UpstreamError GitHubExchangeOk)
        (clientId : String) (repositories : JsValue)
        (entry : TokenEntry) (s' : TokenStorage) (calls : List (Option JsValue)),
        0 < config.tokenLifespan →
        ApiRoutes.getTokenForClient config s now exchange clientId repositories
          = (Except.ok (entry, s'), calls) →
        entry.createdAt < entry.expiresAt) := by
  constructor
  · intro existsSync config
    unfold ConfigValidator.validate
    cases ha : optStrTruthy config.appId <;>
      cases hb : optStrTruthy config.installationId <;>
        cases hc : existsSync config.privateKeyPath <;>
          simp [ha, hb, hc]
  · intro config s now exchange clientId repositories entry s' calls hpos heq
    unfold ApiRoutes.getTokenForClient GitHubTokenService.generateInstallationToken at heq
    dsimp only [] at heq
    cases hex : exchange (exchangeRequestBody repositories) with
    | ok resp =>
      rw [hex] at heq
      dsimp only [] at heq
      simp only [Prod.mk.injEq, Except.ok.injEq] at heq
      obtain ⟨⟨hentry, -⟩, -⟩ := heq
      rw [← hentry]
      show now < now + config.tokenLifespan
      omega
    | error e =>
      rw [hex] at heq
      dsimp only [] at heq
      simp at heq

/-- Witness for the amended C5: a concrete positive-lifespan configuration
issues a record with `createdAt < expiresAt`. -/
theorem c5_validation_ignores_lifespan_amended_witness :
    (0 : Int) < 300000
    ∧ (⟨"token_1_5000", "default", "ghs_tok", 305000, 5000, false⟩ : TokenEntry).createdAt
        < (⟨"token_1_5000", "default", "ghs_tok", 305000, 5000, false⟩ : TokenEntry).expiresAt :=
  ⟨by norm_num,
   c5_validation_ignores_lifespan_amended.2
    ⟨3000, some "a", some "i", some "/k", 60000, 300000⟩
    TokenStorage.init 5000 (fun _ => Except.ok ⟨"ghs_tok", "exp", [], "all"⟩)
    "default" JsValue.null
    ⟨"token_1_5000", "default", "ghs_tok", 305000, 5000, false⟩
    ⟨[("token_1_5000", ⟨"token_1_5000", "default", "ghs_tok", 305000, 5000, false⟩)], 1⟩
    [none] (by norm_num) rfl⟩
